import Mathlib

/-!
Shallow embedding of the `lalog` logging library (`src/lib/index.ts`).

JavaScript runtime values that can appear as fields of a log-event object
are modelled by the inductive type `Val`; a JS object is modelled as an
association list `Rec := List (String × Val)` with JS object semantics
(first occurrence of a key is the binding; update replaces in place;
spread `\x7b...a, ...b\x7d` lets `b` win).

Effectful collaborators are made explicit:
  - `logSingle` / `logBatch` calls are recorded in `WriteResult.deliveries`;
  - `res.status(code).send(payload)` calls are recorded in `WriteResult.replies`;
  - `console.error` calls are recorded in `WriteResult.consoleErrors`;
  - `uuid.v4()` and `new Error()` (fresh stack capture) are passed in as
    the parameters `freshId` and `freshStack`;
  - `Date.now()` is passed in as the parameter `now`;
  - the module-level mutable `currentLevelIndex` is passed in explicitly
    as the parameter `cur` and returned by operations that change it.
-/

namespace LaLog

/-- A request object (TS type `ParseReqIn`): the eight fields that
`Logger.parseReq` projects, plus any extra fields (which `parseReq` drops).
Field payloads are kept opaque as strings, since the library never looks
inside them. -/
structure ReqObj where
  body : String
  headers : String
  method : String
  params : String
  path : String
  query : String
  url : String
  user : String
  extra : List (String × String)
deriving Repr, DecidableEq

/-- A JavaScript runtime value that can sit in a field of a log event.
`errV message stack` models an `Error` object (`stack` is optional, as in
the source comment at src/lib/index.ts:285); `reqV` models an Express
request object; `undef` models `undefined`. -/
inductive Val where
  | undef
  | boolV (b : Bool)
  | num (n : Int)
  | str (s : String)
  | strList (l : List String)
  | errV (message : String) (stack : Option String)
  | reqV (r : ReqObj)
deriving Repr, DecidableEq

/-- JS truthiness of a `Val` (`undefined`, `""`, `0`, `false` are falsy;
objects and arrays are truthy). -/
def Val.truthy : Val → Bool
  | .undef => false
  | .boolV b => b
  | .num n => n != 0
  | .str s => s != ""
  | .strList _ => true
  | .errV _ _ => true
  | .reqV _ => true

/-- A JS object (a log event, a preset map, a normalized record). -/
abbrev Rec := List (String × Val)

/-- Property read `o[k]`: the first binding of key `k`. -/
def getVal : Rec → String → Option Val
  | [], _ => none
  | (k1, v1) :: rest, k => if k1 = k then some v1 else getVal rest k

/-- Property write `o[k] = v`: replaces the binding in place (JS objects
keep the original insertion position of an updated key), and appends a
new key at the tail. -/
def setVal : Rec → String → Val → Rec
  | [], k, v => [(k, v)]
  | (k1, v1) :: rest, k, v =>
    if k1 = k then (k1, v) :: rest else (k1, v1) :: setVal rest k v

/-- Property delete `delete o[k]` (also the effect of the rest pattern
`\x7b req, ...rest \x7d` on the `req` key: every binding of `k` is
dropped; a well-formed JS object has at most one). -/
def delVal : Rec → String → Rec
  | [], _ => []
  | (k1, v1) :: rest, k =>
    if k1 = k then delVal rest k else (k1, v1) :: delVal rest k

/-- JS object spread `\x7b ...a, ...b \x7d`: every binding of `b` is written
over `a`, later bindings winning. -/
def spread (a : Rec) : Rec → Rec
  | [] => a
  | (k, v) :: rest => spread (setVal a k v) rest

/-- Truthiness of property `k` of `o` (JS `!!o[k]`; an absent key reads as
`undefined`, which is falsy). -/
def truthyAt (o : Rec) (k : String) : Bool :=
  match getVal o k with
  | some v => v.truthy
  | none => false

/-- An argument value of `write` (TS `logData: LogData`): either a
record-like object or some other JS value, carried with its `typeof`
name (used in the console message at src/lib/index.ts:243). -/
inductive JsValue where
  | obj (o : Rec)
  | nonObj (typeofName : String)
deriving Repr, DecidableEq

/-- Modelled from the spec: `isObject` is imported from `./utils`, which is
not part of the sources given; per the spec it checks that the event is "a
plain record-like value". In this embedding that is exactly the `obj`
constructor of `JsValue`. -/
def isObject : JsValue → Bool
  | .obj _ => true
  | .nonObj _ => false

/-- Source src/lib/index.ts:11 - the fixed ordered level list. -/
def levels : List String := ["trace", "info", "warn", "error", "fatal", "security"]

/-- JS `Array.prototype.indexOf` running total. -/
def jsIndexOfAux : List String → String → Int → Int
  | [], _, _ => -1
  | x :: xs, s, i => if x = s then i else jsIndexOfAux xs s (i + 1)

/-- JS `levels.indexOf(s)`: index of the first occurrence, `-1` if absent. -/
def jsIndexOf (l : List String) (s : String) : Int :=
  jsIndexOfAux l s 0

/-- Source src/lib/index.ts:65 - the index of "error" in the level list. -/
def errorLevel : Int := jsIndexOf levels "error"

/-- Source src/lib/index.ts:67 - initial threshold from the `LALOG_LEVEL`
environment value (`none` models an unset variable). -/
def getInitialLogLevel (laLogLevel : Option String) : Int :=
  match laLogLevel with
  | some s => if s ∈ levels then jsIndexOf levels s else errorLevel
  | none => errorLevel

/-- JS `levels[i]` as a `Val` (`undefined` when out of range). -/
def jsLevelAt (i : Int) : Val :=
  if i < 0 then Val.undef
  else
    match levels.get? i.toNat with
    | some s => Val.str s
    | none => Val.undef

/-- The wrapper argument of `write` (TS `ResponseWrapper`): the Express
`Response` target is abstracted as an opaque identifier string. -/
structure ResponseWrapper where
  res : String
  code : Nat
deriving Repr, DecidableEq

/-- One `res.status(code).send(\x7b errorId, success: false \x7d)` call. -/
structure Reply where
  target : String
  code : Nat
  errorId : Val
  success : Bool
deriving Repr, DecidableEq

/-- One call to the external transport: `logSingle` or `logBatch`
(src/lib/index.ts:314 and :318). -/
inductive Delivery where
  | single (logObj : Rec) (tag : String)
  | batch (logObjs : List Rec) (tag : String)
deriving Repr, DecidableEq

/-- The per-instance state of a `Logger` (the class fields of
src/lib/index.ts:77-104). `isTransientTriggered` starts out `undefined`
in TS, which is falsy, so it is modelled as `false`. -/
structure Logger where
  isTransient : Bool
  logCollector : Option (List Rec)
  presets : Rec
  tag : String
  timers : List (String × Nat)
  isTransientTriggered : Bool
deriving Repr, DecidableEq

/-- The observable outcome of one `write` call: the updated instance
state and the external effects, in call order. -/
structure WriteResult where
  logger : Logger
  deliveries : List Delivery
  replies : List Reply
  consoleErrors : List String
deriving Repr, DecidableEq

/-- Source src/lib/index.ts:256 - `logObj.errorId || v4()`. -/
def errorIdFor (o : Rec) (freshId : String) : Val :=
  match getVal o "errorId" with
  | some v => if v.truthy then v else Val.str freshId
  | none => Val.str freshId

/-- Source src/lib/index.ts:250-260 - the response block: attach or reuse an
`errorId` and send `\x7b errorId, success: false \x7d` with the wrapper
status code. -/
def applyResponse (response : Option ResponseWrapper) (freshId : String) (o : Rec) :
    Rec × List Reply :=
  match response with
  | none => (o, [])
  | some rw =>
    let errorId := errorIdFor o freshId
    (setVal o "errorId" errorId, [⟨rw.res, rw.code, errorId, false⟩])

/-- Source src/lib/index.ts:278-280 - at `errorLevel` and above with no truthy
`err`, synthesize a fresh `Error` purely for its stack. -/
def synthesizeErr (levelIndex : Int) (freshStack : String) (o : Rec) : Rec :=
  if errorLevel ≤ levelIndex ∧ truthyAt o "err" = false then
    setVal o "err" (Val.errV "" (some freshStack))
  else o

/-- Whether `p` is a character-list prefix of `l`. -/
def hasAtHead : List Char → List Char → Bool
  | _, [] => true
  | [], _ :: _ => false
  | c :: cs, p :: ps => c = p && hasAtHead cs ps

/-- Whether `p` occurs as a contiguous segment of `l`. -/
def hasSub (p : List Char) : List Char → Bool
  | [] => hasAtHead [] p
  | c :: t => hasAtHead (c :: t) p || hasSub p t

/-- JS `s.includes(pat)`. -/
def containsSub (s pat : String) : Bool :=
  hasSub pat.data s.data

/-- JS `s.split(sep)` for a one-character separator, accumulator form. -/
def splitCharAux (sep : Char) : List Char → List Char → List String
  | [], acc => [String.mk acc.reverse]
  | c :: cs, acc =>
    if c = sep then String.mk acc.reverse :: splitCharAux sep cs []
    else splitCharAux sep cs (c :: acc)

/-- JS `s.split(sep)` for a one-character separator (the source only
splits on a newline, src/lib/index.ts:293). -/
def splitChar (s : String) (sep : Char) : List String :=
  splitCharAux sep s.data []

/-- Source src/lib/index.ts:282-303 - if `err` is present (TS types it as
`Error | undefined`, so a present `err` is an `errV`): ensure it has a
stack (capturing a fresh one when missing, line 291; a fresh capture
always carries a stack here, so the literal fallback is unreachable),
split into lines dropping the first, store `fullStack`; keep only lines
without `/node_modules/` as `shortStack`; default a falsy `msg` to the
error message; finally delete `err`. -/
def applyErr (freshStack : String) (o : Rec) : Rec :=
  match getVal o "err" with
  | some (Val.errV m st) =>
    let stk := st.getD freshStack
    let fullStack := (splitChar stk (Char.ofNat 10)).drop 1
    let shortStack := fullStack.filter (fun i => !containsSub i "/node_modules/")
    let o1 := setVal o "fullStack" (Val.strList fullStack)
    let o2 := setVal o1 "shortStack" (Val.strList shortStack)
    let o3 := if truthyAt o2 "msg" then o2 else setVal o2 "msg" (Val.str m)
    delVal o3 "err"
  | _ => o

/-- Source src/lib/index.ts:192-203 - `Logger.parseReq`: keep the eight
allow-listed fields, drop everything else. -/
def parseReq (r : ReqObj) : ReqObj :=
  { body := r.body, headers := r.headers, method := r.method, params := r.params,
    path := r.path, query := r.query, url := r.url, user := r.user, extra := [] }

/-- Source src/lib/index.ts:305-307 - if a truthy `req` was destructured from the
event (TS types it as `ParseReqIn | undefined`), attach its projection. -/
def applyReq (reqOpt : Option Val) (o : Rec) : Rec :=
  match reqOpt with
  | some (Val.reqV r) => setVal o "req" (Val.reqV (parseReq r))
  | _ => o

/-- Source src/lib/index.ts:276-307 - the enrichment applied to an admitted
record: level name, error synthesis and extraction, request projection. -/
def normalizeRecord (levelIndex : Int) (freshStack : String) (reqOpt : Option Val)
    (o : Rec) : Rec :=
  applyReq reqOpt (applyErr freshStack (synthesizeErr levelIndex freshStack
    (setVal o "level" (jsLevelAt levelIndex))))

/-- Source src/lib/index.ts:240-322 - `Logger.write`. `cur` is the module-level
`currentLevelIndex`; `freshId` is the value a `v4()` call would produce;
`freshStack` is the stack a `new Error()` capture would produce. -/
def Logger.write (cur : Int) (st : Logger) (levelIndex : Int) (logData : JsValue)
    (response : Option ResponseWrapper) (freshId : String) (freshStack : String) :
    WriteResult :=
  match logData with
  | .nonObj tn =>
    { logger := st, deliveries := [], replies := [],
      consoleErrors :=
        ["Expecting an object in logger write method but got \"" ++ tn ++ "\""] }
  | .obj o =>
    let reqOpt := getVal o "req"
    let rest := delVal o "req"
    let logObj0 := spread st.presets rest
    let rr := applyResponse response freshId logObj0
    if cur ≤ levelIndex ∨ st.isTransient = true then
      let logObj := normalizeRecord levelIndex freshStack reqOpt rr.1
      if st.logCollector ≠ none ∧ st.isTransientTriggered = false then
        let collector1 := st.logCollector.getD [] ++ [logObj]
        if cur ≤ levelIndex then
          { logger := { st with isTransientTriggered := true, logCollector := none },
            deliveries := [.batch collector1 st.tag], replies := rr.2,
            consoleErrors := [] }
        else
          { logger := { st with logCollector := some collector1 },
            deliveries := [], replies := rr.2, consoleErrors := [] }
      else
        { logger := st, deliveries := [.single logObj st.tag], replies := rr.2,
          consoleErrors := [] }
    else
      { logger := st, deliveries := [], replies := rr.2, consoleErrors := [] }

/-- Source src/lib/index.ts:168-170 - `Logger.getLevel`. -/
def Logger.getLevel (cur : Int) : String :=
  if cur < 0 then "undefined" else (levels.get? cur.toNat).getD "undefined"

/-- Source src/lib/index.ts:177-187 - `Logger.setLevel`: returns the updated
`currentLevelIndex` together with the returned (previous) level name.
A falsy argument (`undefined` or the empty string) is a no-op. -/
def Logger.setLevel (cur : Int) (newLevelName : Option String) : Int × String :=
  let previousLevel := Logger.getLevel cur
  match newLevelName with
  | none => (cur, previousLevel)
  | some s =>
    if s = "" then (cur, previousLevel)
    else
      let newLevelIndex := jsIndexOf levels s
      (if 0 ≤ newLevelIndex then newLevelIndex else cur, previousLevel)

/-- Source src/lib/index.ts:161-163 - `Logger.allLevels`. -/
def Logger.allLevels : List String := levels

/-- A number below 100 as exactly two decimal digits (as it appears in an
ISO-8601 time-of-day string). -/
def pad2 (n : Nat) : String :=
  ⟨[Nat.digitChar (n / 10), Nat.digitChar (n % 10)]⟩

/-- A number below 1000 as exactly three decimal digits (as it appears in
an ISO-8601 time-of-day string). -/
def pad3 (n : Nat) : String :=
  ⟨[Nat.digitChar (n / 100), Nat.digitChar (n / 10 % 10), Nat.digitChar (n % 10)]⟩

/-- Source src/lib/index.ts:208-212 - `Logger.formatMilliseconds`: set `ms` on
the epoch date and take characters 11..22 of the ISO string, i.e. the
UTC time of day `HH:MM:SS.mmm` of `ms` milliseconds after the epoch. -/
def Logger.formatMilliseconds (milliseconds : Nat) : String :=
  let totalSeconds := milliseconds / 1000
  let ms := milliseconds % 1000
  let h := totalSeconds / 3600 % 24
  let m := totalSeconds / 60 % 60
  let s := totalSeconds % 60
  pad2 h ++ ":" ++ pad2 m ++ ":" ++ pad2 s ++ "." ++ pad3 ms

/-- Timer-table write `this.timers[label] = now` (src/lib/index.ts:146-148),
replacing in place like a JS property write. -/
def setTimer : List (String × Nat) → String → Nat → List (String × Nat)
  | [], l, t => [(l, t)]
  | (l1, t1) :: rest, l, t =>
    if l1 = l then (l1, t) :: rest else (l1, t1) :: setTimer rest l t

/-- Source src/lib/index.ts:146-148 - the `time(label)` helper. -/
def Logger.time (st : Logger) (label : String) (now : Nat) : Logger :=
  { st with timers := setTimer st.timers label now }

/-- Source src/lib/index.ts:220-223 - elapsed duration for `label`, or the
missing-label diagnostic embedding a captured stack. -/
def timeEndDuration (timers : List (String × Nat)) (label : String) (now : Nat)
    (diagStack : String) : String :=
  match timers.lookup label with
  | some time => Logger.formatMilliseconds (now - time)
  | none => "Missing label \"" ++ label ++ "\" in timeEnd()\n" ++ diagStack

/-- Source src/lib/index.ts:225-233 - the event record built by `writeTimeEnd`:
the caller extras spread first, then `duration`, `msg` (prefixed with
"Timer - " when the caller supplied a truthy one, else "Timer"; TS types
`msg` as `string | undefined`) and `timerLabel` written over them. -/
def timeEndData (timers : List (String × Nat)) (label : String) (extraLogData : Rec)
    (now : Nat) (diagStack : String) : Rec :=
  let duration := timeEndDuration timers label now diagStack
  let msg :=
    match getVal extraLogData "msg" with
    | some (Val.str s) => if s = "" then "Timer" else "Timer - " ++ s
    | _ => "Timer"
  spread extraLogData
    [("duration", Val.str duration), ("msg", Val.str msg),
     ("timerLabel", Val.str label)]

/-- Source src/lib/index.ts:217-235 - `Logger.writeTimeEnd`: builds the timer
record and routes it through `write` at `levels.indexOf(level)` with no
response wrapper. `diagStack` is the stack captured for a missing label;
`freshStack` is the one a `new Error()` inside `write` would capture. -/
def Logger.writeTimeEnd (cur : Int) (st : Logger) (label : String) (level : String)
    (extraLogDat : Option Rec) (now : Nat) (diagStack : String)
    (freshId freshStack : String) : WriteResult :=
  let levelIndex := jsIndexOf levels level
  let extraLogData := extraLogDat.getD []
  Logger.write cur st levelIndex
    (.obj (timeEndData st.timers label extraLogData now diagStack))
    none freshId freshStack

/-- Source src/lib/index.ts:106-149 - the constructor. `presetsOpt` is the
caller `presets` option (`none` for absent, and any non-object value is
replaced by `\x7b\x7d` via the `isObject` guard on line 121); `nodeEnv`
is `process.env.NODE_ENV`; `freshTrackId` is the `v4()` value used when
`addTrackId` is set and no truthy `trackId` preset exists. -/
def Logger.create (addTrackId : Bool) (moduleName : Option String)
    (presetsOpt : Option Rec) (serviceName : String) (isTransient : Bool)
    (nodeEnv : String) (freshTrackId : String) : Logger :=
  let presets0 :=
    spread [("module", (moduleName.map Val.str).getD Val.undef)] (presetsOpt.getD [])
  let presets1 :=
    if addTrackId = true ∧ truthyAt presets0 "trackId" = false then
      setVal presets0 "trackId" (Val.str freshTrackId)
    else presets0
  { isTransient := isTransient,
    logCollector := if isTransient then some [] else none,
    presets := presets1,
    tag := serviceName ++ "-" ++ nodeEnv,
    timers := [],
    isTransientTriggered := false }

/-- The event record `write` merges and enriches before delivery. -/
def writtenRecord (st : Logger) (levelIndex : Int) (o : Rec)
    (response : Option ResponseWrapper) (freshId : String) (freshStack : String) :
    Rec :=
  normalizeRecord levelIndex freshStack (getVal o "req")
    (applyResponse response freshId (spread st.presets (delVal o "req"))).1

/-- The `err` property of the event, when present, is a TS `Error`. -/
def errTyped (o : Rec) : Prop :=
  getVal o "err" = none ∨ ∃ m s, getVal o "err" = some (Val.errV m s)

/-- A concrete non-transient logger used to instantiate theorems. -/
def sampleLogger : Logger :=
  Logger.create false (some "app") none "svc" false "test" "tid0"

/-- The transient scenario logger: transient, threshold "error" (index 3). -/
def scLogger : Logger :=
  Logger.create false (some "app") none "svc" true "test" "tid0"

/-- Scenario event for the `trace` call. -/
def scE1 : Rec := [("msg", Val.str "first trace")]

/-- Scenario event for the `info` call. -/
def scE2 : Rec := [("msg", Val.str "second info")]

/-- Scenario event for the `error` call (carries an error object). -/
def scE3 : Rec :=
  [("msg", Val.str "boom"),
   ("err", Val.errV "boom" (some "Error: boom\nat f\n/node_modules/x\nat g"))]

/-- Scenario event for the trailing `warn` call. -/
def scE4 : Rec := [("msg", Val.str "after warn")]

/-- Scenario step 1: `trace` (level index 0) at threshold 3. -/
def sc1 : WriteResult := Logger.write 3 scLogger 0 (.obj scE1) none "id1" "E1\nf1"

/-- Scenario step 2: `info` (level index 1). -/
def sc2 : WriteResult := Logger.write 3 sc1.logger 1 (.obj scE2) none "id2" "E2\nf2"

/-- Scenario step 3: `error` (level index 3), the trigger. -/
def sc3 : WriteResult := Logger.write 3 sc2.logger 3 (.obj scE3) none "id3" "E3\nf3"

/-- Scenario step 4: `warn` (level index 2) after the trigger. -/
def sc4 : WriteResult := Logger.write 3 sc3.logger 2 (.obj scE4) none "id4" "E4\nf4"

/-- The logger of the C6 merge-direction input: its presets bind the key
"shared" to the string "preset". -/
def cxLogger : Logger :=
  Logger.create false (some "m") (some [("shared", Val.str "preset")])
    "svc" false "test" "tid"

/-- The C6 event: it also binds "shared", to the string "event". -/
def cxEvent : Rec := [("shared", Val.str "event"), ("msg", Val.str "x")]

/-- The record the C6 write delivers. -/
def cxRec : Rec := writtenRecord cxLogger 3 cxEvent none "idc" "Ec\nfc"

end LaLog
namespace LaLog

theorem getVal_setVal (o : Rec) (k : String) (v : Val) (k1 : String) :
    getVal (setVal o k v) k1 = if k = k1 then some v else getVal o k1 := by
  induction o with
  | nil => simp only [setVal, getVal]
  | cons p rest ih =>
    obtain ⟨k0, v0⟩ := p
    simp only [setVal]
    by_cases h0 : k0 = k <;> by_cases h1 : k = k1 <;>
      simp_all [getVal]

theorem getVal_delVal (o : Rec) (k k1 : String) :
    getVal (delVal o k) k1 = if k1 = k then none else getVal o k1 := by
  induction o with
  | nil => simp [delVal, getVal]
  | cons p rest ih =>
    obtain ⟨k0, v0⟩ := p
    simp only [delVal]
    by_cases h0 : k0 = k
    · subst h0
      by_cases h1 : k1 = k0
      · subst h1; simp [getVal, ih]
      · have h2 : ¬ (k0 = k1) := fun h => h1 h.symm
        simp [getVal, ih, h1, h2]
    · by_cases h1 : k1 = k
      · subst h1
        simp [getVal, ih, h0]
      · simp [getVal, ih, h0, h1]

theorem mem_keys_of_getVal (o : Rec) (k : String) (v : Val)
    (h : getVal o k = some v) : k ∈ o.map Prod.fst := by
  induction o with
  | nil => simp [getVal] at h
  | cons p rest ih =>
    obtain ⟨k0, v0⟩ := p
    simp only [getVal] at h
    by_cases h0 : k0 = k
    · subst h0; simp
    · simp only [if_neg h0] at h
      simp [ih h]

theorem getVal_spread_of_none (a b : Rec) (k : String) (h : getVal b k = none) :
    getVal (spread a b) k = getVal a k := by
  induction b generalizing a with
  | nil => simp [spread]
  | cons p rest ih =>
    obtain ⟨k0, v0⟩ := p
    simp only [getVal] at h
    by_cases h0 : k0 = k
    · simp [h0] at h
    · simp only [if_neg h0] at h
      simp only [spread]
      rw [ih _ h, getVal_setVal, if_neg h0]

theorem getVal_spread_of_some (a b : Rec) (k : String) (v : Val)
    (hnd : (b.map Prod.fst).Nodup) (h : getVal b k = some v) :
    getVal (spread a b) k = some v := by
  induction b generalizing a with
  | nil => simp [getVal] at h
  | cons p rest ih =>
    obtain ⟨k0, v0⟩ := p
    simp only [List.map_cons, List.nodup_cons] at hnd
    by_cases h0 : k0 = k
    · subst h0
      have hv : v0 = v := by simpa [getVal] using h
      subst hv
      have hnone : getVal rest k0 = none := by
        rcases hrest : getVal rest k0 with _ | w
        · rfl
        · exact absurd (mem_keys_of_getVal rest k0 w hrest) hnd.1
      simp only [spread]
      rw [getVal_spread_of_none _ _ _ hnone, getVal_setVal, if_pos rfl]
    · have h2 : getVal rest k = some v := by simpa [getVal, h0] using h
      simp only [spread]
      exact ih _ hnd.2 h2


/-- Keys other than `errorId` are untouched by the response block. -/
theorem getVal_applyResponse (response : Option ResponseWrapper) (fid : String)
    (o : Rec) (k : String) (h : k ≠ "errorId") :
    getVal (applyResponse response fid o).1 k = getVal o k := by
  cases response with
  | none => rfl
  | some rw =>
    simp only [applyResponse, getVal_setVal]
    rw [if_neg (fun hh => h hh.symm)]

/-- Keys other than `err` are untouched by error synthesis. -/
theorem getVal_synthesizeErr (lvl : Int) (fs : String) (o : Rec) (k : String)
    (h : k ≠ "err") :
    getVal (synthesizeErr lvl fs o) k = getVal o k := by
  unfold synthesizeErr
  split
  · rw [getVal_setVal, if_neg (fun hh => h hh.symm)]
  · rfl

/-- Keys other than `err`, `fullStack`, `shortStack` and `msg` are
untouched by error extraction. -/
theorem getVal_applyErr (fs : String) (o : Rec) (k : String)
    (h1 : k ≠ "err") (h2 : k ≠ "fullStack") (h3 : k ≠ "shortStack")
    (h4 : k ≠ "msg") :
    getVal (applyErr fs o) k = getVal o k := by
  unfold applyErr
  split
  · rename_i m st heq
    rw [getVal_delVal, if_neg h1]
    split
    · rw [getVal_setVal, if_neg (fun hh => h3 hh.symm),
        getVal_setVal, if_neg (fun hh => h2 hh.symm)]
    · rw [getVal_setVal, if_neg (fun hh => h4 hh.symm),
        getVal_setVal, if_neg (fun hh => h3 hh.symm),
        getVal_setVal, if_neg (fun hh => h2 hh.symm)]
  · rfl

/-- Keys other than `req` are untouched by request projection. -/
theorem getVal_applyReq (ro : Option Val) (o : Rec) (k : String)
    (h : k ≠ "req") :
    getVal (applyReq ro o) k = getVal o k := by
  unfold applyReq
  split
  · rw [getVal_setVal, if_neg (fun hh => h hh.symm)]
  · rfl

/-- A TS-typed record has no `err` key after error extraction
(src/lib/index.ts:302 deletes it whenever it was present). -/
theorem getVal_err_applyErr (fs : String) (o : Rec) (h : errTyped o) :
    getVal (applyErr fs o) "err" = none := by
  rcases h with h | ⟨m, s, h⟩
  · simp [applyErr, h]
  · simp [applyErr, h, getVal_delVal]

/-- Error synthesis keeps a record TS-typed. -/
theorem errTyped_synthesizeErr (lvl : Int) (fs : String) (o : Rec)
    (h : errTyped o) : errTyped (synthesizeErr lvl fs o) := by
  unfold synthesizeErr
  split
  · exact Or.inr ⟨"", some fs, by rw [getVal_setVal, if_pos rfl]⟩
  · exact h

/-- After synthesis and extraction a TS-typed record has no `err` key. -/
theorem getVal_err_applyErr_synthesizeErr (lvl : Int) (fs : String) (o : Rec)
    (h : errTyped o) :
    getVal (applyErr fs (synthesizeErr lvl fs o)) "err" = none :=
  getVal_err_applyErr fs _ (errTyped_synthesizeErr lvl fs o h)


/-- Equation for `Logger.write` on an object event, with the lets of the source
unfolded: the same decision tree as src/lib/index.ts:275-321. -/
theorem write_obj_eq (cur : Int) (st : Logger) (lvl : Int) (o : Rec)
    (resp : Option ResponseWrapper) (fid fstk : String) :
    Logger.write cur st lvl (.obj o) resp fid fstk =
      (if cur ≤ lvl ∨ st.isTransient = true then
        if st.logCollector ≠ none ∧ st.isTransientTriggered = false then
          if cur ≤ lvl then
            { logger := { st with isTransientTriggered := true, logCollector := none },
              deliveries := [.batch (st.logCollector.getD [] ++ [writtenRecord st lvl o resp fid fstk]) st.tag],
              replies := (applyResponse resp fid (spread st.presets (delVal o "req"))).2,
              consoleErrors := [] }
          else
            { logger := { st with logCollector := some (st.logCollector.getD [] ++ [writtenRecord st lvl o resp fid fstk]) },
              deliveries := [],
              replies := (applyResponse resp fid (spread st.presets (delVal o "req"))).2,
              consoleErrors := [] }
        else
          { logger := st,
            deliveries := [.single (writtenRecord st lvl o resp fid fstk) st.tag],
            replies := (applyResponse resp fid (spread st.presets (delVal o "req"))).2,
            consoleErrors := [] }
      else
        { logger := st, deliveries := [],
          replies := (applyResponse resp fid (spread st.presets (delVal o "req"))).2,
          consoleErrors := [] }) := rfl

/-- Shape of `write` on an object event that is not admitted:
no delivery, state unchanged (the reply still happens). -/
theorem write_shape_skip (cur : Int) (st : Logger) (lvl : Int) (o : Rec)
    (resp : Option ResponseWrapper) (fid fstk : String)
    (hlt : lvl < cur) (htr : st.isTransient = false) :
    Logger.write cur st lvl (.obj o) resp fid fstk =
      { logger := st, deliveries := [], replies :=
          (applyResponse resp fid (spread st.presets (delVal o "req"))).2,
        consoleErrors := [] } := by
  have hna : ¬(cur ≤ lvl ∨ st.isTransient = true) := by
    rintro (h | h)
    · exact absurd hlt (not_lt.mpr h)
    · rw [htr] at h; exact Bool.false_ne_true h
  rw [write_obj_eq, if_neg hna]

/-- Shape of `write` on an admitted object event when no buffer is live
(non-transient, or transient already triggered): one single-record
delivery of the normalized record, state unchanged. -/
theorem write_shape_single (cur : Int) (st : Logger) (lvl : Int) (o : Rec)
    (resp : Option ResponseWrapper) (fid fstk : String)
    (hadm : cur ≤ lvl ∨ st.isTransient = true)
    (hbuf : st.logCollector = none ∨ st.isTransientTriggered = true) :
    Logger.write cur st lvl (.obj o) resp fid fstk =
      { logger := st,
        deliveries := [.single (writtenRecord st lvl o resp fid fstk) st.tag],
        replies := (applyResponse resp fid (spread st.presets (delVal o "req"))).2,
        consoleErrors := [] } := by
  have hnc : ¬(st.logCollector ≠ none ∧ st.isTransientTriggered = false) := by
    rintro ⟨h1, h2⟩
    rcases hbuf with h | h
    · exact h1 h
    · rw [h2] at h; exact Bool.false_ne_true h
  rw [write_obj_eq, if_pos hadm, if_neg hnc]

/-- Shape of `write` on a transient, untriggered logger for an event
below threshold: the normalized record is appended to the buffer, no
delivery. -/
theorem write_shape_buffer (cur : Int) (st : Logger) (lvl : Int) (o : Rec)
    (resp : Option ResponseWrapper) (fid fstk : String) (c : List Rec)
    (htr : st.isTransient = true) (hc : st.logCollector = some c)
    (hng : st.isTransientTriggered = false) (hlt : lvl < cur) :
    Logger.write cur st lvl (.obj o) resp fid fstk =
      { logger := { st with logCollector := some (c ++ [writtenRecord st lvl o resp fid fstk]) },
        deliveries := [],
        replies := (applyResponse resp fid (spread st.presets (delVal o "req"))).2,
        consoleErrors := [] } := by
  rw [write_obj_eq,
    if_pos (Or.inr htr), if_pos ⟨by rw [hc]; exact Option.some_ne_none c, hng⟩,
    if_neg (not_le.mpr hlt), hc]
  rfl

/-- Shape of `write` on a transient, untriggered logger for an event at
or above threshold: the trigger; one batch delivery of the whole buffer
plus this record, buffer discarded, latch set. -/
theorem write_shape_trigger (cur : Int) (st : Logger) (lvl : Int) (o : Rec)
    (resp : Option ResponseWrapper) (fid fstk : String) (c : List Rec)
    (hc : st.logCollector = some c) (hng : st.isTransientTriggered = false)
    (hge : cur ≤ lvl) :
    Logger.write cur st lvl (.obj o) resp fid fstk =
      { logger := { st with isTransientTriggered := true, logCollector := none },
        deliveries := [.batch (c ++ [writtenRecord st lvl o resp fid fstk]) st.tag],
        replies := (applyResponse resp fid (spread st.presets (delVal o "req"))).2,
        consoleErrors := [] } := by
  rw [write_obj_eq,
    if_pos (Or.inl hge), if_pos ⟨by rw [hc]; exact Option.some_ne_none c, hng⟩,
    if_pos hge, hc]
  rfl

end LaLog

namespace LaLog

theorem jsIndexOfAux_of_not_mem (l : List String) (s : String) (i : Int)
    (h : s ∉ l) : jsIndexOfAux l s i = -1 := by
  induction l generalizing i with
  | nil => rfl
  | cons x xs ih =>
    simp only [List.mem_cons, not_or] at h
    simp only [jsIndexOfAux, if_neg (fun hh => h.1 (Eq.symm hh))]
    exact ih (i + 1) h.2

theorem jsIndexOf_of_not_mem (l : List String) (s : String) (h : s ∉ l) :
    jsIndexOf l s = -1 :=
  jsIndexOfAux_of_not_mem l s 0 h

/-- Claim C9: `formatMilliseconds` renders a millisecond count as a
12-character hours:minutes:seconds.milliseconds string from a zero-based
time origin; in particular `formatMilliseconds 65005` is the literal
string "00:01:05.005". -/
theorem claim9_formatMilliseconds :
    Logger.formatMilliseconds 65005 = "00:01:05.005" ∧
    ∀ ms : Nat, (Logger.formatMilliseconds ms).length = 12 := by
  constructor
  · decide
  · intro ms
    have hp2 : ∀ n : Nat, (pad2 n).length = 2 := fun n => rfl
    have hp3 : ∀ n : Nat, (pad3 n).length = 3 := fun n => rfl
    unfold Logger.formatMilliseconds
    simp only [String.length_append, hp2, hp3]
    decide

/-- Claim C3: `setLevel` with an absent or falsy argument is a no-op that
returns the current level name; with a name outside the level list it is a
no-op that returns the current level name; with a valid name it moves the
process-wide index to that level and returns the previous level name. -/
theorem claim3_setLevel (cur : Int) :
    Logger.setLevel cur none = (cur, Logger.getLevel cur) ∧
    Logger.setLevel cur (some "") = (cur, Logger.getLevel cur) ∧
    (∀ s : String, s ∉ levels →
      Logger.setLevel cur (some s) = (cur, Logger.getLevel cur)) ∧
    (∀ s : String, s ∈ levels →
      Logger.setLevel cur (some s) = (jsIndexOf levels s, Logger.getLevel cur) ∧
      Logger.getLevel (jsIndexOf levels s) = s) := by
  refine ⟨rfl, rfl, ?_, ?_⟩
  · intro s hs
    by_cases he : s = ""
    · subst he
      rfl
    · unfold Logger.setLevel
      simp only [if_neg he]
      rw [jsIndexOf_of_not_mem _ _ hs]
      norm_num
  · intro s hs
    have hne : ¬(s = "") := by
      rintro rfl
      simp [levels] at hs
    constructor
    · unfold Logger.setLevel
      simp only [if_neg hne]
      rw [if_pos]
      fin_cases hs <;> decide
    · fin_cases hs <;> decide

/-- Witness for C3 at concrete inputs. -/
theorem claim3_setLevel_witness :
    Logger.setLevel 3 none = (3, "error") ∧
    Logger.setLevel 3 (some "bogus") = (3, "error") ∧
    Logger.setLevel 3 (some "warn") = (2, "error") := by
  have h := claim3_setLevel 3
  refine ⟨by rw [h.1]; decide, ?_, ?_⟩
  · have := h.2.2.1 "bogus" (by decide)
    rw [this]
    decide
  · have := (h.2.2.2 "warn" (by decide)).1
    rw [this]
    decide


/-- Claim C7: a `write` call whose event is not a record-like object is
reported on the fallback console channel and is a no-op success: no
delivery, no reply, no state change. -/
theorem claim7_malformed_input (cur : Int) (st : Logger) (lvl : Int)
    (v : JsValue) (resp : Option ResponseWrapper) (fid fstk : String)
    (h : isObject v = false) :
    ∃ tn, v = JsValue.nonObj tn ∧
      Logger.write cur st lvl v resp fid fstk =
        { logger := st, deliveries := [], replies := [],
          consoleErrors :=
            ["Expecting an object in logger write method but got \"" ++ tn ++ "\""] } := by
  cases v with
  | obj o => simp [isObject] at h
  | nonObj tn => exact ⟨tn, rfl, rfl⟩

/-- Witness for C7: a string event on a concrete logger. -/
theorem claim7_malformed_input_witness :
    isObject (JsValue.nonObj "string") = false ∧
    ∃ tn, JsValue.nonObj "string" = JsValue.nonObj tn ∧
      Logger.write 3 sampleLogger 3 (JsValue.nonObj "string") none "id" "stk" =
        { logger := sampleLogger, deliveries := [], replies := [],
          consoleErrors :=
            ["Expecting an object in logger write method but got \"" ++ tn ++ "\""] } :=
  ⟨by decide, claim7_malformed_input 3 sampleLogger 3 (JsValue.nonObj "string")
    none "id" "stk" (by decide)⟩

/-- Claim C10: when the event is not a record-like object, validation
returns before the response step, so even a supplied `responseWrapper`
produces no reply (hence no `errorId` is ever attached) and no delivery. -/
theorem claim10_malformed_no_reply (cur : Int) (st : Logger) (lvl : Int)
    (v : JsValue) (target : String) (code : Nat) (fid fstk : String)
    (h : isObject v = false) :
    (Logger.write cur st lvl v (some ⟨target, code⟩) fid fstk).replies = [] ∧
    (Logger.write cur st lvl v (some ⟨target, code⟩) fid fstk).deliveries = [] ∧
    (Logger.write cur st lvl v (some ⟨target, code⟩) fid fstk).logger = st := by
  cases v with
  | obj o => simp [isObject] at h
  | nonObj tn => exact ⟨rfl, rfl, rfl⟩

/-- Witness for C10 at a concrete malformed call with a wrapper. -/
theorem claim10_malformed_no_reply_witness :
    isObject (JsValue.nonObj "number") = false ∧
    ((Logger.write 3 sampleLogger 3 (JsValue.nonObj "number")
        (some ⟨"res1", 500⟩) "id" "stk").replies = [] ∧
      (Logger.write 3 sampleLogger 3 (JsValue.nonObj "number")
        (some ⟨"res1", 500⟩) "id" "stk").deliveries = [] ∧
      (Logger.write 3 sampleLogger 3 (JsValue.nonObj "number")
        (some ⟨"res1", 500⟩) "id" "stk").logger = sampleLogger) :=
  ⟨by decide, claim10_malformed_no_reply 3 sampleLogger 3 (JsValue.nonObj "number")
    "res1" 500 "id" "stk" (by decide)⟩

/-- Claim C5: whenever a response wrapper is supplied with an object
event, exactly one reply with the wrapper status code and payload
`{ errorId, success: false }` goes to the wrapper target, regardless
of level versus threshold; the `errorId` reuses a truthy existing one and
is the fresh identifier otherwise, and it is attached to the record. -/
theorem claim5_reply_side_effect (cur : Int) (st : Logger) (lvl : Int) (o : Rec)
    (target : String) (code : Nat) (fid fstk : String) :
    (Logger.write cur st lvl (.obj o) (some ⟨target, code⟩) fid fstk).replies =
      [⟨target, code,
        errorIdFor (spread st.presets (delVal o "req")) fid, false⟩] ∧
    (∀ v : Val, getVal (spread st.presets (delVal o "req")) "errorId" = some v →
      v.truthy = true →
      errorIdFor (spread st.presets (delVal o "req")) fid = v) ∧
    (truthyAt (spread st.presets (delVal o "req")) "errorId" = false →
      errorIdFor (spread st.presets (delVal o "req")) fid = Val.str fid) ∧
    getVal (applyResponse (some ⟨target, code⟩) fid
        (spread st.presets (delVal o "req"))).1 "errorId" =
      some (errorIdFor (spread st.presets (delVal o "req")) fid) := by
  refine ⟨?_, ?_, ?_, ?_⟩
  · rw [write_obj_eq]
    split_ifs <;> rfl
  · intro v hv ht
    simp [errorIdFor, hv, ht]
  · intro hf
    unfold truthyAt at hf
    unfold errorIdFor
    rcases hg : getVal (spread st.presets (delVal o "req")) "errorId" with _ | v
    · simp [hg]
    · rw [hg] at hf
      have hf2 : v.truthy = false := hf
      simp [hg, hf2]
  · simp only [applyResponse]
    rw [getVal_setVal, if_pos rfl]

/-- Witness for C5 on a concrete below-threshold call. -/
theorem claim5_reply_side_effect_witness :
    (Logger.write 3 sampleLogger 0 (.obj [("msg", Val.str "low")])
        (some ⟨"res2", 404⟩) "fresh" "stk").replies =
      [⟨"res2", 404, Val.str "fresh", false⟩] ∧
    truthyAt (spread sampleLogger.presets
        (delVal [("msg", Val.str "low")] "req")) "errorId" = false ∧
    errorIdFor (spread sampleLogger.presets
        (delVal [("msg", Val.str "low")] "req")) "fresh" = Val.str "fresh" := by
  have h := claim5_reply_side_effect 3 sampleLogger 0 [("msg", Val.str "low")]
    "res2" 404 "fresh" "stk"
  refine ⟨?_, by decide, h.2.2.1 (by decide)⟩
  rw [h.1]
  decide


/-- Claim C1: on a transient logger at threshold "error", `trace` then
`info` buffer two records with zero deliveries; `error` appends a third
and produces exactly one batch delivery of all three in call order under
the logger tag, after which the buffer is discarded and the latch set;
every subsequent object write (any level, e.g. the trailing `warn`)
yields one immediate single-record delivery and never buffers again. -/
theorem claim1_transient_state_machine :
    (∃ r1 r2 r3 r4 : Rec,
      sc1.deliveries = [] ∧ sc1.logger.logCollector = some [r1] ∧
      sc2.deliveries = [] ∧ sc2.logger.logCollector = some [r1, r2] ∧
      sc3.deliveries = [Delivery.batch [r1, r2, r3] scLogger.tag] ∧
      sc3.logger.logCollector = none ∧ sc3.logger.isTransientTriggered = true ∧
      sc4.deliveries = [Delivery.single r4 scLogger.tag] ∧
      sc4.logger.logCollector = none ∧ sc4.logger.isTransientTriggered = true) ∧
    (∀ (lvl : Int) (o : Rec) (resp : Option ResponseWrapper) (fid fstk : String),
      (Logger.write 3 sc3.logger lvl (.obj o) resp fid fstk).deliveries =
        [Delivery.single (writtenRecord sc3.logger lvl o resp fid fstk)
          sc3.logger.tag] ∧
      (Logger.write 3 sc3.logger lvl (.obj o) resp fid fstk).logger =
        sc3.logger) := by
  constructor
  · refine ⟨[("module", Val.str "app"), ("msg", Val.str "first trace"),
        ("level", Val.str "trace")],
      [("module", Val.str "app"), ("msg", Val.str "second info"),
        ("level", Val.str "info")],
      [("module", Val.str "app"), ("msg", Val.str "boom"),
        ("level", Val.str "error"),
        ("fullStack", Val.strList ["at f", "/node_modules/x", "at g"]),
        ("shortStack", Val.strList ["at f", "at g"])],
      [("module", Val.str "app"), ("msg", Val.str "after warn"),
        ("level", Val.str "warn")], ?_⟩
    decide
  · intro lvl o resp fid fstk
    rw [write_shape_single 3 sc3.logger lvl o resp fid fstk
      (Or.inr (by decide)) (Or.inl (by decide))]
    exact ⟨rfl, rfl⟩


/-- Keys outside the enrichment set pass from the merged event record to
the delivered record unchanged. -/
theorem getVal_writtenRecord_stable (st : Logger) (lvl : Int) (o : Rec)
    (resp : Option ResponseWrapper) (fid fstk : String) (k : String)
    (h1 : k ≠ "err") (h2 : k ≠ "level") (h3 : k ≠ "fullStack")
    (h4 : k ≠ "shortStack") (h5 : k ≠ "msg") (h6 : k ≠ "req")
    (h7 : k ≠ "errorId") :
    getVal (writtenRecord st lvl o resp fid fstk) k =
      getVal (spread st.presets (delVal o "req")) k := by
  unfold writtenRecord normalizeRecord
  rw [getVal_applyReq _ _ _ h6, getVal_applyErr _ _ _ h1 h3 h4 h5,
    getVal_synthesizeErr _ _ _ _ h1, getVal_setVal,
    if_neg (fun hh => h2 (Eq.symm hh)), getVal_applyResponse _ _ _ _ h7]

/-- Typedness of `err` transports along records with the same `err` binding. -/
theorem errTyped_of_getVal_eq (o o1 : Rec)
    (h : getVal o1 "err" = getVal o "err") (ht : errTyped o) : errTyped o1 := by
  rcases ht with ht | ⟨m, st, ht⟩
  · exact Or.inl (h.trans ht)
  · exact Or.inr ⟨m, st, h.trans ht⟩

/-- The delivered record of a TS-typed event has no `err` key. -/
theorem getVal_err_writtenRecord (st : Logger) (lvl : Int) (o : Rec)
    (resp : Option ResponseWrapper) (fid fstk : String)
    (ht : errTyped (spread st.presets (delVal o "req"))) :
    getVal (writtenRecord st lvl o resp fid fstk) "err" = none := by
  unfold writtenRecord normalizeRecord
  rw [getVal_applyReq _ _ _ (by decide)]
  apply getVal_err_applyErr
  apply errTyped_synthesizeErr
  apply errTyped_of_getVal_eq (spread st.presets (delVal o "req")) _ _ ht
  rw [getVal_setVal, if_neg (by decide),
    getVal_applyResponse _ _ _ _ (by decide)]

/-- Claim C2: on a non-transient logger, an object event strictly below
the threshold produces no delivery and leaves the state unchanged; an
event at or above the threshold produces exactly one single-record
delivery whose record carries the presets merged with the event fields
on every non-enrichment key and has no `err` field. -/
theorem claim2_threshold_filtering (cur : Int) (st : Logger) (lvl : Int)
    (o : Rec) (resp : Option ResponseWrapper) (fid fstk : String)
    (hnt : st.isTransient = false) (hc : st.logCollector = none) :
    (lvl < cur →
      (Logger.write cur st lvl (.obj o) resp fid fstk).deliveries = [] ∧
      (Logger.write cur st lvl (.obj o) resp fid fstk).logger = st) ∧
    (cur ≤ lvl → errTyped (spread st.presets (delVal o "req")) →
      ∃ rec,
        (Logger.write cur st lvl (.obj o) resp fid fstk).deliveries =
          [Delivery.single rec st.tag] ∧
        getVal rec "err" = none ∧
        ∀ k, k ∉ (["err", "level", "fullStack", "shortStack", "msg", "req",
            "errorId"] : List String) →
          getVal rec k = getVal (spread st.presets (delVal o "req")) k) := by
  constructor
  · intro hlt
    rw [write_shape_skip cur st lvl o resp fid fstk hlt hnt]
    exact ⟨rfl, rfl⟩
  · intro hge ht
    refine ⟨writtenRecord st lvl o resp fid fstk, ?_, ?_, ?_⟩
    · rw [write_shape_single cur st lvl o resp fid fstk (Or.inl hge) (Or.inl hc)]
    · exact getVal_err_writtenRecord st lvl o resp fid fstk ht
    · intro k hk
      simp only [List.mem_cons, List.not_mem_nil, or_false, not_or] at hk
      obtain ⟨k1, k2, k3, k4, k5, k6, k7⟩ := hk
      exact getVal_writtenRecord_stable st lvl o resp fid fstk k k1 k2 k3 k4 k5 k6 k7

/-- Witness for C2: a below-threshold and an at-threshold call on a
concrete non-transient logger. -/
theorem claim2_threshold_filtering_witness :
    ((Logger.write 3 sampleLogger 0
        (.obj [("msg", Val.str "low"), ("user", Val.str "u1")])
        none "id" "E\nf").deliveries = [] ∧
      (Logger.write 3 sampleLogger 0
        (.obj [("msg", Val.str "low"), ("user", Val.str "u1")])
        none "id" "E\nf").logger = sampleLogger) ∧
    ∃ rec,
      (Logger.write 3 sampleLogger 3
          (.obj [("msg", Val.str "hi"), ("user", Val.str "u1")])
          none "id" "E\nf").deliveries = [Delivery.single rec sampleLogger.tag] ∧
      getVal rec "err" = none ∧
      ∀ k, k ∉ (["err", "level", "fullStack", "shortStack", "msg", "req",
          "errorId"] : List String) →
        getVal rec k = getVal (spread sampleLogger.presets
          (delVal [("msg", Val.str "hi"), ("user", Val.str "u1")] "req")) k :=
  ⟨(claim2_threshold_filtering 3 sampleLogger 0
      [("msg", Val.str "low"), ("user", Val.str "u1")] none "id" "E\nf"
      rfl rfl).1 (by decide),
    (claim2_threshold_filtering 3 sampleLogger 3
      [("msg", Val.str "hi"), ("user", Val.str "u1")] none "id" "E\nf"
      rfl rfl).2 (by decide) (Or.inl (by decide))⟩


/-- Truthiness at other keys is unchanged by a property write. -/
theorem truthyAt_setVal_ne (o : Rec) (k : String) (v : Val) (k1 : String)
    (h : k ≠ k1) : truthyAt (setVal o k v) k1 = truthyAt o k1 := by
  unfold truthyAt
  rw [getVal_setVal, if_neg h]

/-- A key absent from the record is falsy. -/
theorem truthyAt_eq_false_of_getVal_none (o : Rec) (k : String)
    (h : getVal o k = none) : truthyAt o k = false := by
  simp [truthyAt, h]

/-- What error extraction writes, given the `err` binding: the stack of
the error (the fresh stack when it has none) split into lines with the
first dropped as `fullStack`, the lines without "/node_modules/" as
`shortStack`, and the error message as `msg` when `msg` was falsy. -/
theorem applyErr_spec (fs : String) (o : Rec) (m : String) (st : Option String)
    (h : getVal o "err" = some (Val.errV m st)) :
    getVal (applyErr fs o) "fullStack" =
      some (Val.strList ((splitChar (st.getD fs) (Char.ofNat 10)).drop 1)) ∧
    getVal (applyErr fs o) "shortStack" =
      some (Val.strList (((splitChar (st.getD fs) (Char.ofNat 10)).drop 1).filter
        (fun i => !containsSub i "/node_modules/"))) ∧
    (truthyAt o "msg" = false →
      getVal (applyErr fs o) "msg" = some (Val.str m)) := by
  simp only [applyErr, h]
  rw [truthyAt_setVal_ne _ _ _ _ (by decide), truthyAt_setVal_ne _ _ _ _ (by decide)]
  by_cases hm : truthyAt o "msg" = true
  · rw [if_pos hm]
    refine ⟨?_, ?_, ?_⟩
    · rw [getVal_delVal, if_neg (by decide), getVal_setVal, if_neg (by decide),
        getVal_setVal, if_pos rfl]
    · rw [getVal_delVal, if_neg (by decide), getVal_setVal, if_pos rfl]
    · intro hf
      rw [hm] at hf
      exact absurd hf (by decide)
  · rw [if_neg hm]
    refine ⟨?_, ?_, ?_⟩
    · rw [getVal_delVal, if_neg (by decide), getVal_setVal, if_neg (by decide),
        getVal_setVal, if_neg (by decide), getVal_setVal, if_pos rfl]
    · rw [getVal_delVal, if_neg (by decide), getVal_setVal, if_neg (by decide),
        getVal_setVal, if_pos rfl]
    · intro hf
      rw [getVal_delVal, if_neg (by decide), getVal_setVal, if_pos rfl]

/-- The merged record, after the response step and the `level` write,
keeps its `err` and `msg` bindings. -/
theorem getVal_after_level_response (st : Logger) (lvl : Int) (o : Rec)
    (resp : Option ResponseWrapper) (fid : String) (k : String)
    (h1 : k ≠ "level") (h2 : k ≠ "errorId") :
    getVal (setVal (applyResponse resp fid
        (spread st.presets (delVal o "req"))).1 "level" (jsLevelAt lvl)) k =
      getVal (spread st.presets (delVal o "req")) k := by
  rw [getVal_setVal, if_neg (fun hh => h1 (Eq.symm hh)),
    getVal_applyResponse _ _ _ _ h2]

/-- Stacks in the delivered record when no error was supplied at error
level and above: both derive from the freshly captured stack. -/
theorem writtenRecord_synth_stacks (st : Logger) (lvl : Int) (o : Rec)
    (resp : Option ResponseWrapper) (fid fstk : String)
    (hge3 : errorLevel ≤ lvl)
    (hnone : getVal (spread st.presets (delVal o "req")) "err" = none) :
    getVal (writtenRecord st lvl o resp fid fstk) "fullStack" =
      some (Val.strList ((splitChar fstk (Char.ofNat 10)).drop 1)) ∧
    getVal (writtenRecord st lvl o resp fid fstk) "shortStack" =
      some (Val.strList (((splitChar fstk (Char.ofNat 10)).drop 1).filter
        (fun i => !containsSub i "/node_modules/"))) := by
  unfold writtenRecord normalizeRecord
  have hx0 : getVal (setVal (applyResponse resp fid
      (spread st.presets (delVal o "req"))).1 "level" (jsLevelAt lvl)) "err" =
      none := by
    rw [getVal_after_level_response st lvl o resp fid "err" (by decide) (by decide)]
    exact hnone
  have hsy : synthesizeErr lvl fstk (setVal (applyResponse resp fid
      (spread st.presets (delVal o "req"))).1 "level" (jsLevelAt lvl)) =
      setVal (setVal (applyResponse resp fid
        (spread st.presets (delVal o "req"))).1 "level" (jsLevelAt lvl)) "err"
        (Val.errV "" (some fstk)) := by
    unfold synthesizeErr
    rw [if_pos ⟨hge3, truthyAt_eq_false_of_getVal_none _ _ hx0⟩]
  rw [hsy]
  have hserr : getVal (setVal (setVal (applyResponse resp fid
      (spread st.presets (delVal o "req"))).1 "level" (jsLevelAt lvl)) "err"
      (Val.errV "" (some fstk))) "err" = some (Val.errV "" (some fstk)) := by
    rw [getVal_setVal, if_pos rfl]
  have hs := applyErr_spec fstk _ "" (some fstk) hserr
  exact ⟨by rw [getVal_applyReq _ _ _ (by decide)]; exact hs.1,
    by rw [getVal_applyReq _ _ _ (by decide)]; exact hs.2.1⟩

/-- Stacks, `msg` default and `err` removal in the delivered record when
the event supplied an error with a stack. -/
theorem writtenRecord_err_stacks (st : Logger) (lvl : Int) (o : Rec)
    (resp : Option ResponseWrapper) (fid fstk : String) (m s : String)
    (herr : getVal (spread st.presets (delVal o "req")) "err" =
      some (Val.errV m (some s))) :
    getVal (writtenRecord st lvl o resp fid fstk) "fullStack" =
      some (Val.strList ((splitChar s (Char.ofNat 10)).drop 1)) ∧
    getVal (writtenRecord st lvl o resp fid fstk) "shortStack" =
      some (Val.strList (((splitChar s (Char.ofNat 10)).drop 1).filter
        (fun i => !containsSub i "/node_modules/"))) ∧
    (getVal (spread st.presets (delVal o "req")) "msg" = none →
      getVal (writtenRecord st lvl o resp fid fstk) "msg" =
        some (Val.str m)) := by
  unfold writtenRecord normalizeRecord
  have hx0 : getVal (setVal (applyResponse resp fid
      (spread st.presets (delVal o "req"))).1 "level" (jsLevelAt lvl)) "err" =
      some (Val.errV m (some s)) := by
    rw [getVal_after_level_response st lvl o resp fid "err" (by decide) (by decide)]
    exact herr
  have hsy : synthesizeErr lvl fstk (setVal (applyResponse resp fid
      (spread st.presets (delVal o "req"))).1 "level" (jsLevelAt lvl)) =
      setVal (applyResponse resp fid
        (spread st.presets (delVal o "req"))).1 "level" (jsLevelAt lvl) := by
    unfold synthesizeErr
    rw [if_neg]
    rintro ⟨h1, h2⟩
    simp [truthyAt, hx0, Val.truthy] at h2
  rw [hsy]
  have hs := applyErr_spec fstk _ m (some s) hx0
  refine ⟨by rw [getVal_applyReq _ _ _ (by decide)]; exact hs.1,
    by rw [getVal_applyReq _ _ _ (by decide)]; exact hs.2.1, ?_⟩
  intro hmsg
  rw [getVal_applyReq _ _ _ (by decide)]
  apply hs.2.2
  apply truthyAt_eq_false_of_getVal_none
  rw [getVal_after_level_response st lvl o resp fid "msg" (by decide) (by decide)]
  exact hmsg


/-- Claim C4: for an admitted write on a non-transient logger, (a) at
error level and above with no `err` in the merged record, the delivered
record carries `fullStack` and `shortStack` derived from the freshly
captured stack; (b) for a supplied error value with a stack, `fullStack`
is its stack split into lines with the first dropped, `shortStack` is
`fullStack` without the dependency-path lines and is a subsequence of
it, `msg` defaults to the error message when absent, and the delivered
record has no `err` field. -/
theorem claim4_error_enrichment (cur : Int) (st : Logger) (lvl : Int)
    (o : Rec) (resp : Option ResponseWrapper) (fid fstk : String)
    (hnt : st.isTransient = false) (hc : st.logCollector = none)
    (hge : cur ≤ lvl) :
    (errorLevel ≤ lvl →
      getVal (spread st.presets (delVal o "req")) "err" = none →
      ∃ rec,
        (Logger.write cur st lvl (.obj o) resp fid fstk).deliveries =
          [Delivery.single rec st.tag] ∧
        getVal rec "fullStack" =
          some (Val.strList ((splitChar fstk (Char.ofNat 10)).drop 1)) ∧
        getVal rec "shortStack" =
          some (Val.strList (((splitChar fstk (Char.ofNat 10)).drop 1).filter
            (fun i => !containsSub i "/node_modules/")))) ∧
    (∀ m s : String,
      getVal (spread st.presets (delVal o "req")) "err" =
        some (Val.errV m (some s)) →
      ∃ rec,
        (Logger.write cur st lvl (.obj o) resp fid fstk).deliveries =
          [Delivery.single rec st.tag] ∧
        getVal rec "err" = none ∧
        getVal rec "fullStack" =
          some (Val.strList ((splitChar s (Char.ofNat 10)).drop 1)) ∧
        getVal rec "shortStack" =
          some (Val.strList (((splitChar s (Char.ofNat 10)).drop 1).filter
            (fun i => !containsSub i "/node_modules/"))) ∧
        List.Sublist
          (((splitChar s (Char.ofNat 10)).drop 1).filter
            (fun i => !containsSub i "/node_modules/"))
          ((splitChar s (Char.ofNat 10)).drop 1) ∧
        (getVal (spread st.presets (delVal o "req")) "msg" = none →
          getVal rec "msg" = some (Val.str m))) := by
  constructor
  · intro hge3 hnone
    refine ⟨writtenRecord st lvl o resp fid fstk, ?_, ?_, ?_⟩
    · rw [write_shape_single cur st lvl o resp fid fstk (Or.inl hge) (Or.inl hc)]
    · exact (writtenRecord_synth_stacks st lvl o resp fid fstk hge3 hnone).1
    · exact (writtenRecord_synth_stacks st lvl o resp fid fstk hge3 hnone).2
  · intro m s herr
    refine ⟨writtenRecord st lvl o resp fid fstk, ?_, ?_, ?_, ?_, ?_, ?_⟩
    · rw [write_shape_single cur st lvl o resp fid fstk (Or.inl hge) (Or.inl hc)]
    · exact getVal_err_writtenRecord st lvl o resp fid fstk
        (Or.inr ⟨m, some s, herr⟩)
    · exact (writtenRecord_err_stacks st lvl o resp fid fstk m s herr).1
    · exact (writtenRecord_err_stacks st lvl o resp fid fstk m s herr).2.1
    · exact List.filter_sublist _
    · exact (writtenRecord_err_stacks st lvl o resp fid fstk m s herr).2.2

/-- Witness for C4: a no-error `error`-level write and a supplied-error
write with message "boom" and no `msg`, on a concrete logger. -/
theorem claim4_error_enrichment_witness :
    (∃ rec,
      (Logger.write 3 sampleLogger 3 (.obj [("msg", Val.str "hi")])
          none "id" "E0\nat a\n/node_modules/y\nat b").deliveries =
        [Delivery.single rec sampleLogger.tag] ∧
      getVal rec "fullStack" =
        some (Val.strList ((splitChar "E0\nat a\n/node_modules/y\nat b"
          (Char.ofNat 10)).drop 1)) ∧
      getVal rec "shortStack" =
        some (Val.strList (((splitChar "E0\nat a\n/node_modules/y\nat b"
          (Char.ofNat 10)).drop 1).filter
            (fun i => !containsSub i "/node_modules/")))) ∧
    (∃ rec,
      (Logger.write 3 sampleLogger 3
          (.obj [("err", Val.errV "boom"
            (some "Error: boom\nat f\n/node_modules/x\nat g"))])
          none "id" "E0\nf0").deliveries =
        [Delivery.single rec sampleLogger.tag] ∧
      getVal rec "err" = none ∧
      getVal rec "fullStack" =
        some (Val.strList ((splitChar "Error: boom\nat f\n/node_modules/x\nat g"
          (Char.ofNat 10)).drop 1)) ∧
      getVal rec "shortStack" =
        some (Val.strList (((splitChar "Error: boom\nat f\n/node_modules/x\nat g"
          (Char.ofNat 10)).drop 1).filter
            (fun i => !containsSub i "/node_modules/"))) ∧
      List.Sublist
        (((splitChar "Error: boom\nat f\n/node_modules/x\nat g"
          (Char.ofNat 10)).drop 1).filter
            (fun i => !containsSub i "/node_modules/"))
        ((splitChar "Error: boom\nat f\n/node_modules/x\nat g"
          (Char.ofNat 10)).drop 1) ∧
      (getVal (spread sampleLogger.presets
          (delVal [("err", Val.errV "boom"
            (some "Error: boom\nat f\n/node_modules/x\nat g"))] "req"))
          "msg" = none →
        getVal rec "msg" = some (Val.str "boom"))) := by
  constructor
  · exact (claim4_error_enrichment 3 sampleLogger 3 [("msg", Val.str "hi")]
      none "id" "E0\nat a\n/node_modules/y\nat b" rfl rfl (by decide)).1
      (by decide) (by decide)
  · exact (claim4_error_enrichment 3 sampleLogger 3
      [("err", Val.errV "boom" (some "Error: boom\nat f\n/node_modules/x\nat g"))]
      none "id" "E0\nf0" rfl rfl (by decide)).2 "boom"
      "Error: boom\nat f\n/node_modules/x\nat g" (by decide)


/-- Deleting a key yields a sublist of the record. -/
theorem delVal_sublist (o : Rec) (k : String) : List.Sublist (delVal o k) o := by
  induction o with
  | nil => simp [delVal]
  | cons p rest ih =>
    obtain ⟨k0, v0⟩ := p
    simp only [delVal]
    split
    · exact ih.cons _
    · exact ih.cons₂ _

/-- Key membership after a property write. -/
theorem mem_keys_setVal (o : Rec) (k : String) (v : Val) (k1 : String) :
    k1 ∈ (setVal o k v).map Prod.fst ↔ k1 ∈ o.map Prod.fst ∨ k1 = k := by
  induction o with
  | nil => simp [setVal]
  | cons p rest ih =>
    obtain ⟨k0, v0⟩ := p
    simp only [setVal]
    split
    · rename_i he
      subst he
      simp only [List.map_cons, List.mem_cons]
      constructor
      · rintro (h | h)
        · exact Or.inl (Or.inl h)
        · exact Or.inl (Or.inr h)
      · rintro ((h | h) | h)
        · exact Or.inl h
        · exact Or.inr h
        · exact Or.inl h
    · simp only [List.map_cons, List.mem_cons, ih]
      tauto

/-- A property write preserves distinctness of keys. -/
theorem nodup_keys_setVal (o : Rec) (k : String) (v : Val)
    (h : (o.map Prod.fst).Nodup) : ((setVal o k v).map Prod.fst).Nodup := by
  induction o with
  | nil => simp [setVal]
  | cons p rest ih =>
    obtain ⟨k0, v0⟩ := p
    simp only [List.map_cons, List.nodup_cons] at h
    simp only [setVal]
    split
    · simp only [List.map_cons, List.nodup_cons]
      exact h
    · rename_i hne
      simp only [List.map_cons, List.nodup_cons, mem_keys_setVal]
      exact ⟨fun hh => hh.elim h.1 hne, ih h.2⟩

/-- Spreading onto a record with distinct keys keeps keys distinct. -/
theorem nodup_keys_spread (a b : Rec) (h : (a.map Prod.fst).Nodup) :
    ((spread a b).map Prod.fst).Nodup := by
  induction b generalizing a with
  | nil => exact h
  | cons p rest ih =>
    obtain ⟨k0, v0⟩ := p
    exact ih _ (nodup_keys_setVal a k0 v0 h)

/-- Deleting a key preserves distinctness of keys. -/
theorem nodup_keys_delVal (o : Rec) (k : String)
    (h : (o.map Prod.fst).Nodup) : ((delVal o k).map Prod.fst).Nodup :=
  ((delVal_sublist o k).map Prod.fst).nodup h

/-- Counterexample to C6 as stated: the key "shared" is present in both
the presets and the event payload, yet the delivered record does not
carry the preset value for it (it carries the event value): in
`{ ...presets, ...rest }` the event fields win. -/
theorem claim6_counterexample :
    getVal cxLogger.presets "shared" = some (Val.str "preset") ∧
    getVal cxEvent "shared" = some (Val.str "event") ∧
    (Logger.write 3 cxLogger 3 (.obj cxEvent) none "idc" "Ec\nfc").deliveries =
      [Delivery.single cxRec cxLogger.tag] ∧
    getVal cxRec "shared" ≠ some (Val.str "preset") := by
  decide

/-- Claim C6 as amended: the record is built by shallow-merging the event
fields over the presets, so on every key present in the event payload
(outside the enrichment keys) the delivered record carries the event
value. -/
theorem claim6_merge_event_wins (cur : Int) (st : Logger) (lvl : Int)
    (o : Rec) (resp : Option ResponseWrapper) (fid fstk : String)
    (k : String) (v : Val)
    (hc : st.logCollector = none) (hge : cur ≤ lvl)
    (hnd : (o.map Prod.fst).Nodup)
    (hk : k ∉ (["err", "level", "fullStack", "shortStack", "msg", "req",
        "errorId"] : List String))
    (hv : getVal o k = some v) :
    ∃ rec,
      (Logger.write cur st lvl (.obj o) resp fid fstk).deliveries =
        [Delivery.single rec st.tag] ∧
      getVal rec k = some v := by
  simp only [List.mem_cons, List.not_mem_nil, or_false, not_or] at hk
  obtain ⟨k1, k2, k3, k4, k5, k6, k7⟩ := hk
  refine ⟨writtenRecord st lvl o resp fid fstk, ?_, ?_⟩
  · rw [write_shape_single cur st lvl o resp fid fstk (Or.inl hge) (Or.inl hc)]
  · rw [getVal_writtenRecord_stable st lvl o resp fid fstk k k1 k2 k3 k4 k5 k6 k7]
    apply getVal_spread_of_some
    · exact nodup_keys_delVal o "req" hnd
    · rw [getVal_delVal, if_neg k6]
      exact hv

/-- Witness for the amended C6 at a concrete input. -/
theorem claim6_merge_event_wins_witness :
    ∃ rec,
      (Logger.write 3 cxLogger 3 (.obj cxEvent) none "idc" "Ec\nfc").deliveries =
        [Delivery.single rec cxLogger.tag] ∧
      getVal rec "shared" = some (Val.str "event") :=
  claim6_merge_event_wins 3 cxLogger 3 cxEvent none "idc" "Ec\nfc"
    "shared" (Val.str "event") rfl (by decide) (by decide) (by decide) (by decide)


/-- The missing-label diagnostic duration string. -/
theorem timeEndDuration_missing (timers : List (String × Nat)) (label : String)
    (now : Nat) (ds : String) (h : timers.lookup label = none) :
    timeEndDuration timers label now ds =
      "Missing label \"" ++ label ++ "\" in timeEnd()\n" ++ ds := by
  simp [timeEndDuration, h]

/-- The timer record always binds `duration` to the computed duration. -/
theorem getVal_timeEndData_duration (timers : List (String × Nat))
    (label : String) (extra : Rec) (now : Nat) (ds : String) :
    getVal (timeEndData timers label extra now ds) "duration" =
      some (Val.str (timeEndDuration timers label now ds)) := by
  unfold timeEndData
  apply getVal_spread_of_some
  · simp
  · simp [getVal]

/-- The timer record always binds `timerLabel` to the label. -/
theorem getVal_timeEndData_timerLabel (timers : List (String × Nat))
    (label : String) (extra : Rec) (now : Nat) (ds : String) :
    getVal (timeEndData timers label extra now ds) "timerLabel" =
      some (Val.str label) := by
  unfold timeEndData
  apply getVal_spread_of_some
  · simp
  · simp [getVal]

/-- The timer record `msg`: "Timer" when the caller supplied none, and
"Timer - " prefixed to a nonempty caller message. -/
theorem getVal_timeEndData_msg (timers : List (String × Nat)) (label : String)
    (extra : Rec) (now : Nat) (ds : String) :
    (getVal extra "msg" = none →
      getVal (timeEndData timers label extra now ds) "msg" =
        some (Val.str "Timer")) ∧
    (∀ mm : String, mm ≠ "" → getVal extra "msg" = some (Val.str mm) →
      getVal (timeEndData timers label extra now ds) "msg" =
        some (Val.str ("Timer - " ++ mm))) := by
  constructor
  · intro h
    unfold timeEndData
    simp only [h]
    apply getVal_spread_of_some
    · simp
    · simp [getVal]
  · intro mm hne h
    unfold timeEndData
    simp only [h]
    rw [if_neg hne]
    apply getVal_spread_of_some
    · simp
    · simp [getVal]

/-- Claim C8: `timeEnd` for a label never started does not fail; the
record routed through `write` binds `duration` to a diagnostic string
embedding the captured stack, always binds `duration` and `timerLabel`,
and binds `msg` to "Timer - " before a supplied message, else "Timer";
on a non-transient logger at a threshold admitting "error" the record is
delivered with those fields. -/
theorem claim8_timeEnd_missing_label (cur : Int) (st : Logger) (label : String)
    (extra : Rec) (now : Nat) (ds fid fstk : String)
    (hmiss : st.timers.lookup label = none)
    (hc : st.logCollector = none) (hcur : cur ≤ 3)
    (hnd : (extra.map Prod.fst).Nodup) :
    getVal (timeEndData st.timers label extra now ds) "duration" =
      some (Val.str ("Missing label \"" ++ label ++ "\" in timeEnd()\n" ++ ds)) ∧
    getVal (timeEndData st.timers label extra now ds) "timerLabel" =
      some (Val.str label) ∧
    (getVal extra "msg" = none →
      getVal (timeEndData st.timers label extra now ds) "msg" =
        some (Val.str "Timer")) ∧
    (∀ mm : String, mm ≠ "" → getVal extra "msg" = some (Val.str mm) →
      getVal (timeEndData st.timers label extra now ds) "msg" =
        some (Val.str ("Timer - " ++ mm))) ∧
    ∃ rec,
      (Logger.writeTimeEnd cur st label "error" (some extra) now ds
          fid fstk).deliveries = [Delivery.single rec st.tag] ∧
      getVal rec "duration" =
        some (Val.str ("Missing label \"" ++ label ++ "\" in timeEnd()\n" ++ ds)) ∧
      getVal rec "timerLabel" = some (Val.str label) := by
  have hdur := getVal_timeEndData_duration st.timers label extra now ds
  rw [timeEndDuration_missing st.timers label now ds hmiss] at hdur
  have hw : Logger.writeTimeEnd cur st label "error" (some extra) now ds fid fstk =
      Logger.write cur st 3 (.obj (timeEndData st.timers label extra now ds))
        none fid fstk := by
    unfold Logger.writeTimeEnd
    rw [show jsIndexOf levels "error" = 3 from by decide]
    rfl
  refine ⟨hdur, getVal_timeEndData_timerLabel st.timers label extra now ds,
    (getVal_timeEndData_msg st.timers label extra now ds).1,
    (getVal_timeEndData_msg st.timers label extra now ds).2,
    writtenRecord st 3 (timeEndData st.timers label extra now ds) none fid fstk,
    ?_, ?_, ?_⟩
  · rw [hw, write_shape_single cur st 3 (timeEndData st.timers label extra now ds)
      none fid fstk (Or.inl hcur) (Or.inl hc)]
  · rw [getVal_writtenRecord_stable st 3 (timeEndData st.timers label extra now ds)
      none fid fstk "duration" (by decide) (by decide) (by decide) (by decide)
      (by decide) (by decide) (by decide)]
    apply getVal_spread_of_some
    · exact nodup_keys_delVal _ "req" (nodup_keys_spread extra _ hnd)
    · rw [getVal_delVal, if_neg (by decide)]
      exact hdur
  · rw [getVal_writtenRecord_stable st 3 (timeEndData st.timers label extra now ds)
      none fid fstk "timerLabel" (by decide) (by decide) (by decide) (by decide)
      (by decide) (by decide) (by decide)]
    apply getVal_spread_of_some
    · exact nodup_keys_delVal _ "req" (nodup_keys_spread extra _ hnd)
    · rw [getVal_delVal, if_neg (by decide)]
      exact getVal_timeEndData_timerLabel st.timers label extra now ds

/-- Witness for C8: a never-started label on a concrete logger. -/
theorem claim8_timeEnd_missing_label_witness :
    getVal (timeEndData sampleLogger.timers "job" [("msg", Val.str "op")] 500 "DS")
        "duration" =
      some (Val.str ("Missing label \"" ++ "job" ++ "\" in timeEnd()\n" ++ "DS")) ∧
    getVal (timeEndData sampleLogger.timers "job" [("msg", Val.str "op")] 500 "DS")
        "timerLabel" = some (Val.str "job") ∧
    getVal (timeEndData sampleLogger.timers "job" [("msg", Val.str "op")] 500 "DS")
        "msg" = some (Val.str ("Timer - " ++ "op")) ∧
    ∃ rec,
      (Logger.writeTimeEnd 3 sampleLogger "job" "error"
          (some [("msg", Val.str "op")]) 500 "DS" "id" "E\nf").deliveries =
        [Delivery.single rec sampleLogger.tag] ∧
      getVal rec "duration" =
        some (Val.str ("Missing label \"" ++ "job" ++ "\" in timeEnd()\n" ++ "DS")) ∧
      getVal rec "timerLabel" = some (Val.str "job") := by
  have h := claim8_timeEnd_missing_label 3 sampleLogger "job"
    [("msg", Val.str "op")] 500 "DS" "id" "E\nf" (by decide) rfl (by decide)
    (by decide)
  exact ⟨h.1, h.2.1, h.2.2.2.1 "op" (by decide) (by decide), h.2.2.2.2⟩

end LaLog
